import Mathlib

/-!
# Verification of the reprivileger core (`src/index.js`)

This file gives a shallow embedding, in Lean 4, of the parts of the
reprivileger engine that the specification's claims are about:

* the validation-rule tokenizer `tokenizeValidationRule` and the field
  validator `validateText` (src/index.js:37-224);
* the overlay split/merge helpers `splitPatch` / `mergePatch`
  (src/index.js:498-528);
* the reference-depth checker `checkRecursiveDocumentDepth`
  (src/index.js:1355-1375);
* the privilege resolver `getParents` / `accessLevelSlow` /
  `userIsAdministrator` / `accessLevelSlowWithUser` / `userCanRead`
  (src/index.js:1391-1510);
* the schema checker `checkTypesNested` (src/index.js:226-470);
* the lock/timeout guard of `doPromiseWithLock` (src/index.js:2546-2591).

JavaScript objects are duck-typed, so records, schemas, field
descriptors and transit rules are all embedded as one recursive value
type `JSVal`; a missing property (JS `undefined`) is `Option.none`.
Promises are embedded as `Except String α`: `Except.error` is a
rejected promise, `Except.ok` a resolved one.  Asynchronous record-store
calls are embedded as oracle functions supplied in a `Security`
context; concurrent `Promise.all` joins are deterministic in the source
(pure AND / bitwise-OR reductions), so they are embedded as folds in
array order, with rejection reported for the first rejected member.
-/

namespace Reprivileger

/-- A JavaScript value: `null`, booleans, numbers (the engine only ever
computes with integers), strings, arrays, and plain objects (ordered
association lists of properties, as JS `for (… in …)` iterates them in
insertion order).  JS `undefined` is represented *outside* this type, as
`Option.none` of an `Option JSVal`. -/
inductive JSVal where
  | null
  | bool (b : Bool)
  | num (n : Int)
  | str (s : String)
  | arr (xs : List JSVal)
  | obj (fs : List (String × JSVal))

namespace JSVal

/-- `k in o` for a JS object (property-presence test). -/
def objHas (o : JSVal) (k : String) : Bool :=
  match o with
  | .obj fs => fs.any (fun p => p.1 == k)
  | _ => false

/-- `o[k]` for a JS object; `none` is JS `undefined`. -/
def objGet (o : JSVal) (k : String) : Option JSVal :=
  match o with
  | .obj fs => (fs.find? (fun p => p.1 == k)).map Prod.snd
  | _ => none

/-- `o[k]` defaulted to `null` (used only under an `k in o` guard). -/
def objGetD (o : JSVal) (k : String) : JSVal :=
  (objGet o k).getD .null

/-- Property assignment on a property list: an existing property keeps
its position and gets the new value, a new property is appended (JS
insertion-order semantics). -/
def objSetL (fs : List (String × JSVal)) (k : String) (v : JSVal) :
    List (String × JSVal) :=
  if fs.any (fun p => p.1 == k) then
    fs.map (fun p => if p.1 == k then (p.1, v) else p)
  else
    fs ++ [(k, v)]

/-- Property assignment `o[k] = v`. -/
def objSet (o : JSVal) (k : String) (v : JSVal) : JSVal :=
  match o with
  | .obj fs => .obj (objSetL fs k v)
  | _ => o

/-- The property names of an object, in iteration order. -/
def objKeys (o : JSVal) : List String :=
  match o with
  | .obj fs => fs.map Prod.fst
  | _ => []

/-- JS truthiness of a value. -/
def truthy : JSVal → Bool
  | .null => false
  | .bool b => b
  | .num n => n != 0
  | .str s => s != ""
  | .arr _ => true
  | .obj _ => true

end JSVal

/-- JS truthiness of a possibly-`undefined` value. -/
def jsTruthy : Option JSVal → Bool
  | none => false
  | some v => v.truthy

/-- JS `typeof` of a possibly-`undefined` value. -/
def jsTypeof : Option JSVal → String
  | none => "undefined"
  | some .null => "object"
  | some (.bool _) => "boolean"
  | some (.num _) => "number"
  | some (.str _) => "string"
  | some (.arr _) => "object"
  | some (.obj _) => "object"

/-- JS loose equality with `null` (`x == null`), true exactly for `null`
and `undefined`. -/
def jsEqNull : Option JSVal → Bool
  | none => true
  | some .null => true
  | _ => false

/-- Membership in `[0-9]`. -/
def isDigitChar (c : Char) : Bool :=
  '0' ≤ c ∧ c ≤ '9'

/-- The numeric value of a digit string. -/
def digitsToNat (ds : List Char) : Nat :=
  ds.foldl (fun a c => a * 10 + (c.toNat - '0'.toNat)) 0

/-- JS `ToNumber` on a string (`none` is NaN): the empty string is 0,
an optionally signed digit string is its value, anything else is NaN.
The engine only feeds integer-literal parameters (`max:5`, `step:3`, …)
through this. -/
def strToNumber (s : String) : Option Int :=
  if s = "" then some 0
  else
    match s.toList with
    | '-' :: ds =>
      if ds ≠ [] ∧ ds.all isDigitChar then some (-(digitsToNat ds : Int))
      else none
    | '+' :: ds =>
      if ds ≠ [] ∧ ds.all isDigitChar then some ((digitsToNat ds : Int))
      else none
    | ds =>
      if ds.all isDigitChar then some ((digitsToNat ds : Int)) else none

/-- JS `ToNumber` of a possibly-`undefined` value (`none` is NaN).
Objects and arrays would go through `ToPrimitive`; the engine never
compares those numerically, so they are mapped to NaN. -/
def jsToNumber : Option JSVal → Option Int
  | none => none
  | some .null => some 0
  | some (.bool b) => some (if b then 1 else 0)
  | some (.num n) => some n
  | some (.str s) => strToNumber s
  | some (.arr _) => none
  | some (.obj _) => none

/-- JS loose equality (`==`) restricted to the values the engine
compares: scalars compare by the usual coercion table; objects and
arrays compare by reference, and since the embedding has no aliasing
(every record/object literal is a distinct reference), two
object/array operands compare unequal. -/
def jsLooseEq (a b : Option JSVal) : Bool :=
  match a, b with
  | none, x => jsEqNull x
  | x, none => jsEqNull x
  | some .null, x => jsEqNull x
  | x, some .null => jsEqNull x
  | some (.num m), some (.num n) => m == n
  | some (.str s), some (.str t) => s == t
  | some (.bool p), some (.bool q) => p == q
  | some (.obj _), _ => false
  | _, some (.obj _) => false
  | some (.arr _), _ => false
  | _, some (.arr _) => false
  | x, y => jsToNumber x == jsToNumber y

/-- JS `<` on two number-or-NaN operands (`none` is NaN; any comparison
with NaN is false). -/
def jsNumLT (a b : Option Int) : Bool :=
  match a, b with
  | some m, some n => m < n
  | _, _ => false

/-- JS `>` on two number-or-NaN operands. -/
def jsNumGT (a b : Option Int) : Bool :=
  match a, b with
  | some m, some n => n < m
  | _, _ => false

/-- JS `x.length`: defined for strings and arrays, `undefined`
otherwise (reading `.length` off a number gives `undefined`). -/
def jsLength : Option JSVal → Option Int
  | some (.str s) => some (s.length : Int)
  | some (.arr xs) => some (xs.length : Int)
  | _ => none

/-- JS `ToUint32` of an integer. -/
def toUint32 (x : Int) : Nat :=
  (x.emod (2 ^ 32)).toNat

/-- Reinterpret a 32-bit pattern as a signed JS `ToInt32` result. -/
def ofUint32 (n : Nat) : Int :=
  if n < 2 ^ 31 then (n : Int) else (n : Int) - 2 ^ 32

/-- JS bitwise OR `a | b` on integers (32-bit wrap-around). -/
def jsOr (a b : Int) : Int :=
  ofUint32 ((toUint32 a).lor (toUint32 b))

/-- JS bitwise AND `a & b` on integers (32-bit wrap-around). -/
def jsAnd (a b : Int) : Int :=
  ofUint32 ((toUint32 a).land (toUint32 b))

/-!
## Rule Tokenizer (`tokenizeValidationRule`, src/index.js:37-102)

The source's `getToken` contains two `while` loops whose bodies advance
a cursor `toffset` by at least one position per iteration and stop at
`text.length` at the latest, so each loop runs at most
`text.length + 1` iterations; the embeddings below take an explicit
iteration budget instantiated to a bound sufficient by that argument,
which keeps every definition structurally recursive and executable.
-/

/-- The inner quote-scanning `while` loop of `getToken`
(src/index.js:46-51).  Note the source compares `text[offset]` — the
fixed *start* of the token — rather than `text[toffset]`; the embedding
mirrors that.  The loop body advances `toffset` by 1 or 2. -/
def quoteScanLoop (text : List Char) (offset : Nat) : Nat → Nat → Nat
  | 0, toffset => toffset
  | fuel + 1, toffset =>
    if toffset < text.length ∧ text.get? offset ≠ some '\'' then
      quoteScanLoop text offset fuel
        (if text.get? offset = some '\\' ∧ toffset + 1 < text.length then
          toffset + 2
        else
          toffset + 1)
    else
      toffset

/-- The outer `while` loop of `getToken` (src/index.js:43-62).  Again
the quote tests read `text[offset]`, not `text[toffset]`, exactly as in
the source. -/
def getTokenLoop (text : List Char) (offset : Nat) : Nat → Nat → Int
  | 0, toffset => (toffset : Int)
  | fuel + 1, toffset =>
    if toffset < text.length ∧ text.get? toffset ≠ some '|' ∧
        text.get? toffset ≠ some ':' then
      if text.get? offset = some '\'' then
        let t1 := quoteScanLoop text offset (text.length + 1) (toffset + 1)
        if t1 < text.length ∧ text.get? offset = some '\'' then
          getTokenLoop text offset fuel (t1 + 1)
        else if t1 = text.length then
          (-1 : Int)
        else
          getTokenLoop text offset fuel t1
      else
        getTokenLoop text offset fuel (toffset + 1)
    else
      (toffset : Int)

/-- `getToken(text, offset)` (src/index.js:40-65): index one past the
token starting at `offset`, or `-1` on a missing closing quote. -/
def getToken (text : List Char) (offset : Nat) : Int :=
  getTokenLoop text offset (text.length + 2) offset

/-- JS `text.slice(start, stop)` on a character list, for
`0 ≤ start ≤ stop`. -/
def sliceStr (text : List Char) (start stop : Nat) : String :=
  String.mk ((text.drop start).take (stop - start))

/-- `getRule(text, offset)` (src/index.js:66-82): the scan position
after the subrule plus the subrule as a (name, optional parameter)
list. -/
def getRule (text : List Char) (offset : Nat) : Int × List String :=
  let name_start := offset
  let name_end := getToken text name_start
  if (name_start : Int) < name_end then
    let rv := [sliceStr text name_start name_end.toNat]
    if name_end < (text.length : Int) ∧
        text.get? name_end.toNat = some ':' then
      let value_start := name_end.toNat + 1
      let value_end := getToken text value_start
      if (value_start : Int) < value_end then
        (value_end, rv ++ [sliceStr text value_start value_end.toNat])
      else
        (value_end, rv)
    else
      (name_end, rv)
  else
    (name_end, [])

/-- The `tokenize` loop (src/index.js:83-99).  The scan offset is an
`Int` because `getRule` can yield `-1`; `text[-1]` is `undefined`,
which differs from `'|'`, so a negative offset drives the offset to
`text.length` and the loop exits, exactly as in the source.  Each
iteration either advances the offset or sets it to `text.length`, so
`text.length + 2` iterations always suffice. -/
def tokenizeLoop (text : List Char) : Nat → Int → List (List String) →
    List (List String)
  | 0, _, rules => rules
  | fuel + 1, offset, rules =>
    if offset < (text.length : Int) then
      let tmpv := getRule text offset.toNat
      let offset2 := tmpv.1
      let rules2 := if 0 < tmpv.2.length then rules ++ [tmpv.2] else rules
      let offset3 :=
        if offset2 < (text.length : Int) then
          if 0 ≤ offset2 ∧ text.get? offset2.toNat = some '|' then
            offset2 + 1
          else
            (text.length : Int)
        else
          offset2
      tokenizeLoop text fuel offset3 rules2
    else
      rules

/-- `tokenizeValidationRule(rule)` (src/index.js:37-102): the ordered
list of subrules, each a (name, optional parameter) list. -/
def tokenizeValidationRule (rule : String) : List (List String) :=
  tokenizeLoop rule.toList (rule.toList.length + 2) 0 []

/-!
## Field Validator (`validateText`, src/index.js:104-224)
-/

/-- Membership in the character class `[A-Za-z0-9]`. -/
def isAlphaNumChar (c : Char) : Bool :=
  ('A' ≤ c ∧ c ≤ 'Z') ∨ ('a' ≤ c ∧ c ≤ 'z') ∨ ('0' ≤ c ∧ c ≤ '9')

/-- The regex `/^[A-Za-z0-9]*$/` (src/index.js:148). -/
def alphaNumMatch (s : String) : Bool :=
  s.toList.all isAlphaNumChar

/-- The regex `/^[A-Za-z0-9_-]*$/` (src/index.js:156). -/
def alphaDashMatch (s : String) : Bool :=
  s.toList.all (fun c => isAlphaNumChar c ∨ c = '_' ∨ c = '-')

/-- The regex `/^[A-Za-z0-9 _-]*$/` (src/index.js:164). -/
def alphaDashSpaceMatch (s : String) : Bool :=
  s.toList.all (fun c => isAlphaNumChar c ∨ c = ' ' ∨ c = '_' ∨ c = '-')

/-- The regex `/^[A-Za-z0-9\/\.:_-]*$/` (src/index.js:172). -/
def alphaSlashMatch (s : String) : Bool :=
  s.toList.all
    (fun c => isAlphaNumChar c ∨ c = '/' ∨ c = '.' ∨ c = ':' ∨ c = '_' ∨ c = '-')

/-- The regex `/^[A-Za-z0-9\/\.: _-]*$/` (src/index.js:180). -/
def alphaSlashSpaceMatch (s : String) : Bool :=
  s.toList.all
    (fun c => isAlphaNumChar c ∨ c = '/' ∨ c = '.' ∨ c = ':' ∨ c = ' ' ∨
      c = '_' ∨ c = '-')

/-- The regex `/^[0-9]{1,2}\/[0-9]{1,2}\/[0-9]+$/` (src/index.js:188). -/
def usDateMatch (s : String) : Bool :=
  match s.splitOn "/" with
  | [a, b, c] =>
    (1 ≤ a.length ∧ a.length ≤ 2 ∧ a.toList.all isDigitChar) ∧
    (1 ≤ b.length ∧ b.length ≤ 2 ∧ b.toList.all isDigitChar) ∧
    (1 ≤ c.length ∧ c.toList.all isDigitChar)
  | _ => false

/-- One step of the string-typed `forEach` of `validateText`
(src/index.js:134-198).  The `alpha_*` and `us_date` subrules call
`data.match(...)`, which throws a `TypeError` when `data` is not a
string (the thrown exception is the `Except.error` case). -/
def applyStringRule (data : Option JSVal) (rv : Int) (cv : List String) :
    Except String Int :=
  if 2 ≤ cv.length ∧ cv.getD 0 "" = "max" then
    .ok (if jsNumGT (jsLength data) (strToNumber (cv.getD 1 "")) then -1 else rv)
  else if 2 ≤ cv.length ∧ cv.getD 0 "" = "min" then
    .ok (if jsNumLT (jsLength data) (strToNumber (cv.getD 1 "")) then -1 else rv)
  else if 1 ≤ cv.length ∧ cv.getD 0 "" = "alpha_num" then
    match data with
    | some (.str s) => .ok (if alphaNumMatch s then rv else -1)
    | _ => .error "TypeError: data.match is not a function"
  else if 1 ≤ cv.length ∧ cv.getD 0 "" = "alpha_dash" then
    match data with
    | some (.str s) => .ok (if alphaDashMatch s then rv else -1)
    | _ => .error "TypeError: data.match is not a function"
  else if 1 ≤ cv.length ∧ cv.getD 0 "" = "alpha_dash_space" then
    match data with
    | some (.str s) => .ok (if alphaDashSpaceMatch s then rv else -1)
    | _ => .error "TypeError: data.match is not a function"
  else if 1 ≤ cv.length ∧ cv.getD 0 "" = "alpha_slash" then
    match data with
    | some (.str s) => .ok (if alphaSlashMatch s then rv else -1)
    | _ => .error "TypeError: data.match is not a function"
  else if 1 ≤ cv.length ∧ cv.getD 0 "" = "alpha_slash_space" then
    match data with
    | some (.str s) => .ok (if alphaSlashSpaceMatch s then rv else -1)
    | _ => .error "TypeError: data.match is not a function"
  else if 1 ≤ cv.length ∧ cv.getD 0 "" = "us_date" then
    match data with
    | some (.str s) => .ok (if usDateMatch s then rv else -1)
    | _ => .error "TypeError: data.match is not a function"
  else if 1 ≤ cv.length ∧ cv.getD 0 "" = "required" then
    .ok (if jsEqNull data then -1 else rv)
  else
    .ok rv

/-- The string-typed `forEach` of `validateText` folded over the
subrules. -/
def applyStringRules (data : Option JSVal) :
    List (List String) → Int → Except String Int
  | [], rv => .ok rv
  | cv :: rest, rv => do
    let rvNext ← applyStringRule data rv cv
    applyStringRules data rest rvNext

/-- One step of the number-typed `forEach` of `validateText`
(src/index.js:200-219).  `data % cv[1]` follows the JS remainder: NaN
when the divisor is 0 or either operand is NaN (and `NaN != 0` holds,
failing the step rule); otherwise truncated-division remainder. -/
def applyNumberRule (data : Option JSVal) (rv : Int) (cv : List String) : Int :=
  if 2 ≤ cv.length ∧ cv.getD 0 "" = "max" then
    if jsNumGT (jsToNumber data) (strToNumber (cv.getD 1 "")) then -1 else rv
  else if 2 ≤ cv.length ∧ cv.getD 0 "" = "min" then
    if jsNumLT (jsToNumber data) (strToNumber (cv.getD 1 "")) then -1 else rv
  else if 2 ≤ cv.length ∧ cv.getD 0 "" = "step" then
    match jsToNumber data, strToNumber (cv.getD 1 "") with
    | some a, some b =>
      if b = 0 then -1 else if a.tmod b ≠ 0 then -1 else rv
    | _, _ => -1
  else
    rv

/-- `validateText(rule, data)` (src/index.js:104-224).  The source
dispatches on `typeof('data')` — the *string literal* `'data'`, not the
variable — at lines 133 and 199, and the embedding mirrors that
verbatim: the string branch is taken for every non-null value and the
number branch is unreachable. -/
def validateText (rule : String) (data : Option JSVal) : Except String Int :=
  let rules := tokenizeValidationRule rule
  if jsEqNull data then
    let rule_required :=
      rules.any (fun cv => decide (1 ≤ cv.length) && (cv.getD 0 "" == "required"))
    .ok (if rule_required then -1 else 0)
  else if jsTypeof (some (.str "data")) = "string" then
    applyStringRules data rules 0
  else if jsTypeof (some (.str "data")) = "number" then
    .ok (rules.foldl (applyNumberRule data) 0)
  else
    .ok (-1)

/-!
## Overlay/Patch Merger (`splitPatch` / `mergePatch`, src/index.js:498-528)
-/

/-- The properties of an object, `[]` for non-objects (`for (ci in x)`
iterates nothing on the values the engine passes here). -/
def JSVal.objFields : JSVal → List (String × JSVal)
  | .obj fs => fs
  | _ => []

/-- The record `{data, baseData, overlayData}` that `splitPatch` and
`mergeSchemedPatch` return. -/
structure SplitResult where
  data : JSVal
  baseData : JSVal
  overlayData : JSVal

/-- The `for (ci in data)` loop of `splitPatch` (src/index.js:504-512),
threading the two output objects. -/
def splitPatchLoop (schema : JSVal) :
    List (String × JSVal) → JSVal → JSVal → JSVal × JSVal
  | [], baseData, overlayData => (baseData, overlayData)
  | (ci, v) :: rest, baseData, overlayData =>
    if schema.objHas ci then
      if (schema.objGetD ci).objHas "overlay" &&
          jsTruthy ((schema.objGetD ci).objGet "overlay") then
        splitPatchLoop schema rest baseData (overlayData.objSet ci v)
      else
        splitPatchLoop schema rest (baseData.objSet ci v) overlayData
    else
      splitPatchLoop schema rest baseData overlayData

/-- `splitPatch(schema, data)` (src/index.js:498-514): partitions the
schema-declared properties of `data` by the field's `overlay` flag;
properties absent from `schema` go to neither output. -/
def splitPatch (schema data : JSVal) : SplitResult :=
  let p := splitPatchLoop schema data.objFields (.obj []) (.obj [])
  ⟨data, p.1, p.2⟩

/-- `mergePatch(baseData, overlayData)` (src/index.js:516-528): copies
the base properties and then the overlay properties into a fresh
object, the overlay winning on shared keys. -/
def mergePatch (baseData overlayData : JSVal) : JSVal :=
  let d1 := baseData.objFields.foldl (fun acc p => acc.objSet p.1 p.2) (.obj [])
  overlayData.objFields.foldl (fun acc p => acc.objSet p.1 p.2) d1

/-!
## The Record Store and the security context

The host service registry (`this.app.service(name).get/find`) is an
external collaborator; it is embedded as a pair of oracle functions
returning resolved (`Except.ok`) or rejected (`Except.error`) results.
The configuration surface (`id_name`, `models`, `data_schema`,
`privilege_transit`, `user_self_access`,
`user_administrator_flag_name`) is read-only after initialization and
is carried in the same structure.
-/

/-- The abstract Record Store: `service(cls).get(id)` and
`service(cls).find({query})`. -/
structure RecordStore where
  get : JSVal → JSVal → Except String JSVal
  find : JSVal → JSVal → Except String JSVal

/-- The security object (`this` of the engine's methods): the Record
Store plus the process-wide configuration. -/
structure Security where
  store : RecordStore
  id_name : String
  models : JSVal
  data_schema : JSVal
  privilege_transit : JSVal
  user_self_access : Option JSVal
  user_administrator_flag_name : Option JSVal

/-- The elements of a JS array, `[]` for non-arrays. -/
def jsArrElems : JSVal → List JSVal
  | .arr xs => xs
  | _ => []

/-- JS `ToString` of a value used as a property key. -/
def jsKeyString : JSVal → String
  | .null => "null"
  | .bool b => if b then "true" else "false"
  | .num n => toString n
  | .str s => s
  | .arr _ => ""
  | .obj _ => "[object Object]"

/-- JS `ToString` of a possibly-`undefined` value used as a property
key. -/
def jsKeyStringU : Option JSVal → String
  | none => "undefined"
  | some v => jsKeyString v

/-- The numeric payload of a value already known (by a `typeof` guard
at the use site) to be a number; non-numbers map to 0 as JS `ToInt32`
does on `null`, `undefined` and NaN. -/
def jsNumOf : Option JSVal → Int
  | some (.num n) => n
  | _ => 0

/-- The string payload of a value already known (by a `typeof` guard at
the use site) to be a string. -/
def jsStrOf : Option JSVal → String
  | some (.str s) => s
  | _ => ""

/-!
## Reference Integrity Checker (`checkRecursiveDocumentDepth`,
src/index.js:1355-1375)

The `lookback` object maps already-visited ids (coerced to property
keys) to `1`; only membership and `Object.keys(...).length` are ever
consulted, so it is embedded as a `Finset String`.  The `trail`
argument is only ever appended to for the benefit of
`getDocumentStack`; it does not influence the returned depth and is
omitted.  The recursion terminates because every recursive call inserts
a fresh id into `lookback`, whose size is capped at `0xFFFF` by the
size guard.

The cycle and size guards `return -2` / `return -3` — bare numbers —
while every other path returns a promise, so the JS function's return
type is the union of the two, embedded as `DepthResult` below.  The
recursive call site (src/index.js:1368) immediately invokes `.then` on
the recursive result: on a bare number that throws a `TypeError`
inside the enclosing fulfillment callback, which rejects the promise
the enclosing level returns (the handler at line 1374 only covers the
rejection of the `get`, not throws from its fulfillment callback); on
a rejected promise the handler at line 1371 resolves `-1`.
-/

/-- The result of one `checkRecursiveDocumentDepth` call: a bare
number from the early guards (src/index.js:1359-1360), or a promise
from every other path. -/
inductive DepthResult where
  | raw (n : Int)
  | promise (r : Except String Int)

/-- The recursion of `checkRecursiveDocumentDepth` with an explicit
budget.  Every recursive call first inserts a fresh id into `lookback`
and only recurses while `lookback` holds fewer than `0xFFFF` keys, so
from a visited set of `c` keys at most `0x10000 - c` nested calls can
occur and a budget of `0x10000` always suffices; the budget-exhaustion
branch is unreachable under that budget.

An already-visited id returns the bare `-2` and an oversized visited
set the bare `-3`; a Record Store failure resolves `-1` (line 1374);
otherwise the chain field is followed: a bare-number recursive result
makes `.then` throw, rejecting this level's promise with a
`TypeError`; a resolved negative is propagated, a resolved
non-negative is incremented, and a rejected recursive promise resolves
`-1` (line 1371). -/
def checkRecursiveDocumentDepthGo (sec : Security) :
    Nat → JSVal → JSVal → String → Finset String → DepthResult
  | 0, _, _, _, _ => .promise (.error "recursion budget exhausted")
  | fuel + 1, target_class, doc_id, reference_name, lookback =>
    if jsKeyString doc_id ∈ lookback then
      .raw (-2)
    else if 0xFFFF ≤ lookback.card then
      .raw (-3)
    else
      match sec.store.get target_class doc_id with
      | .error _ => .promise (.ok (-1))
      | .ok curr_entity =>
        let lookback2 := insert (jsKeyString doc_id) lookback
        if curr_entity.objHas reference_name &&
            (jsTypeof (curr_entity.objGet reference_name) == "string") &&
            !(jsLooseEq (curr_entity.objGet reference_name) (some (.str ""))) then
          match checkRecursiveDocumentDepthGo sec fuel target_class
              (curr_entity.objGetD reference_name) reference_name lookback2 with
          | .raw _ =>
            .promise (.error "TypeError: .then is not a function")
          | .promise (.ok tmpv) =>
            .promise (.ok (if tmpv < 0 then tmpv else tmpv + 1))
          | .promise (.error _) =>
            .promise (.ok (-1))
        else
          .promise (.ok 0)

/-- `checkRecursiveDocumentDepth(target_class, doc_id, reference_name,
lookback)` (src/index.js:1355-1375), at the always-sufficient
budget. -/
def checkRecursiveDocumentDepth (sec : Security) (target_class : JSVal)
    (doc_id : JSVal) (reference_name : String) (lookback : Finset String) :
    DepthResult :=
  checkRecursiveDocumentDepthGo sec 0x10000 target_class doc_id reference_name
    lookback

/-!
## Privilege Resolver (src/index.js:1391-1510)

`accessLevelSlow` recurses through the privilege-transit graph with no
cycle guard in the source (a documented configuration assumption), so
the embedding takes an explicit recursion budget `fuel`; for any
configuration whose transit graph is acyclic, every sufficiently large
budget computes the source's value.
-/

/-- `getParents(target_class, target_id)` (src/index.js:1391-1414): the
list of `{target_class, target_id, mask?}` parent links found through
the Privilege Transit Rules of `target_class`; `[]` when the class has
no rules or the record cannot be fetched. -/
def getParents (sec : Security) (target_class : JSVal) (target_id : JSVal) :
    List JSVal :=
  if sec.privilege_transit.objHas (jsKeyString target_class) then
    match sec.store.get target_class target_id with
    | .error _ => []
    | .ok curr_entity =>
      (jsArrElems (sec.privilege_transit.objGetD (jsKeyString target_class))).foldl
        (fun rv cv =>
          let kname := jsKeyStringU (cv.objGet "key")
          if curr_entity.objHas kname &&
              !(jsLooseEq (curr_entity.objGet kname) (some .null)) then
            rv ++ [if cv.objHas "mask" then
              .obj [("target_class", cv.objGetD "class"),
                ("target_id", curr_entity.objGetD kname),
                ("mask", cv.objGetD "mask")]
            else
              .obj [("target_class", cv.objGetD "class"),
                ("target_id", curr_entity.objGetD kname)]]
          else
            rv)
        []
  else
    []

/-- The accumulation loop over resolved parent levels
(src/index.js:1450-1459).  The source computes the masked value into
`tmp` (lines 1454-1456) and then ORs `currentValue & ~1` — not `tmp` —
into the accumulator (line 1457), so the transit mask never reaches the
result; the embedding mirrors that, keeping the dead computation. -/
def transitAccumulate (parent_levels : List Int) (target_parents : List JSVal) :
    Int :=
  (parent_levels.zip target_parents).foldl
    (fun parent_max_acc cvpar =>
      let tmp := jsAnd cvpar.1 (-2)
      let _tmpMasked :=
        if cvpar.2.objHas "mask" then jsAnd tmp (jsNumOf (cvpar.2.objGet "mask"))
        else tmp
      jsOr parent_max_acc (jsAnd cvpar.1 (-2)))
    0

/-- `accessLevelSlow(target_user, target_class, target_id)`
(src/index.js:1415-1470).  `p0` is the existence check, `p1` the direct
authority grants (plus the configured self-access), `p2` the transitive
grants; `Promise.all([p0, p1, p2])` is followed by a handler whose
error branch resolves to `0` (line 1469), so a rejection of `p0` — the
only member that can reject — yields a *resolved* `0`. -/
def accessLevelSlow (sec : Security) :
    Nat → JSVal → JSVal → JSVal → Except String Int
  | 0, _, _, _ => .ok 0
  | fuel + 1, target_user, target_class, target_id =>
    let p0 : Except String Int :=
      match sec.store.get target_class target_id with
      | .ok _ => .ok 0
      | .error e => .error e
    let searchParams : JSVal := .obj [("user_id", target_user),
      ("target_class", target_class), ("target_id", target_id),
      ("destroy_date", .null)]
    let p1 : Int :=
      match sec.store.find (.str "authorities") searchParams with
      | .error _ => 0
      | .ok curr_auth =>
        let maxacc1 : Int :=
          if jsLooseEq (some target_class) (some (.str "users")) &&
              sec.user_self_access.isSome &&
              (jsTypeof sec.user_self_access == "number") &&
              jsLooseEq (some target_id) (some target_user) then
            jsOr 0 (jsNumOf sec.user_self_access)
          else 0
        if curr_auth.objHas "data" then
          (jsArrElems (curr_auth.objGetD "data")).foldl
            (fun acc cv =>
              if cv.objHas "privilege" &&
                  (jsTypeof (cv.objGet "privilege") == "number") then
                jsOr acc (jsNumOf (cv.objGet "privilege"))
              else acc)
            maxacc1
        else maxacc1
    let target_parents := getParents sec target_class target_id
    let parent_levels := target_parents.map (fun cv =>
      match accessLevelSlow sec fuel target_user (cv.objGetD "target_class")
          (cv.objGetD "target_id") with
      | .ok v => v
      | .error _ => 0)
    let p2 : Int := transitAccumulate parent_levels target_parents
    match p0 with
    | .error _ => .ok 0
    | .ok v0 => .ok (jsOr (jsOr (jsOr 0 v0) p1) p2)

/-- `userIsAdministrator(target_user)` (src/index.js:1471-1494): `1`
for a null acting user, else the truthiness of the configured
administrator flag on the user record (a Record Store error is
re-raised); `0` when no flag name is configured.  (The `$overlay`
query parameter only selects the overlay-merged row; the oracle
`get` already answers with the effective user record.) -/
def userIsAdministrator (sec : Security) (target_user : JSVal) :
    Except String Int :=
  if jsEqNull (some target_user) then
    .ok 1
  else if sec.user_administrator_flag_name.isSome &&
      (jsTypeof sec.user_administrator_flag_name == "string") then
    match sec.store.get (.str "users") target_user with
    | .error e => .error e
    | .ok uv =>
      let flag := jsStrOf sec.user_administrator_flag_name
      if uv.objHas flag && jsTruthy (uv.objGet flag) then .ok 1 else .ok 0
  else
    .ok 0

/-- `accessLevelSlowWithUser(target_user, target_class, target_id)`
(src/index.js:1495-1504): `Promise.all` of the administrator check, the
slow access level and the record fetch; any rejection is re-raised,
otherwise the administrator flag is widened to `0xFF` and OR-ed in. -/
def accessLevelSlowWithUser (sec : Security) (fuel : Nat)
    (target_user target_class target_id : JSVal) : Except String Int :=
  match userIsAdministrator sec target_user,
      accessLevelSlow sec fuel target_user target_class target_id,
      sec.store.get target_class target_id with
  | .error e, _, _ => .error e
  | _, .error e, _ => .error e
  | _, _, .error e => .error e
  | .ok adm, .ok lvl, .ok _ => .ok (jsOr (if adm != 0 then 0xFF else 0) lvl)

/-- `userCanRead(target_user, target_class, target_id)`
(src/index.js:1505-1510): `1` for a null acting user; otherwise `1`
exactly when `x & 0x3` is truthy for the combined bitmask `x`, and `0`
on a rejected bitmask computation. -/
def userCanRead (sec : Security) (fuel : Nat)
    (target_user target_class target_id : JSVal) : Except String Int :=
  if jsEqNull (some target_user) then
    .ok 1
  else
    match accessLevelSlowWithUser sec fuel target_user target_class target_id with
    | .ok x => .ok (if jsAnd x 0x3 != 0 then 1 else 0)
    | .error _ => .ok 0

/-!
## Schema Validator (`checkTypesNested`, src/index.js:226-470)

`checkTypesNested` walks the properties of `data`, may return early
(a rejection or a quiet `-1`), and accumulates deferred checks
(`extraChecks`) that `Promise.all` joins at the end.  A deferred check
settles to a value (`some v`), to JS `undefined` (`none`, from the
administrator check's empty return), or rejects.  `Promise.all` over
already-settled members is embedded as rejection with the first
rejected member in array order.  The submodel branch recurses through
the model registry, which the source does not guard against cycles, so
the embedding takes a recursion budget `fuel`; any budget at least the
nesting depth of the (finite, per the configuration invariant) schema
tree computes the source's value.
-/

/-- `Promise.all` over settled promises: the list of values, or the
first rejection in array order. -/
def promiseAll {α : Type} : List (Except String α) → Except String (List α)
  | [] => .ok []
  | .error e :: _ => .error e
  | .ok v :: rest => (promiseAll rest).map (v :: ·)

/-- `x instanceof Object` (true for plain objects and arrays). -/
def jsInstanceOfObject : Option JSVal → Bool
  | some (.obj _) => true
  | some (.arr _) => true
  | _ => false

/-- `data[pkey] instanceof sfields[pkey]['instanceof']`
(src/index.js:248).  Constructor functions are not representable in the
value model; the engine's schemas use `instanceof` only with
object-valued constructors, so the embedding tests Object-likeness.
(No claim exercises an `instanceof` descriptor; theorems about
`checkTypesNested` hypothesize its absence.) -/
def jsInstanceOf (v : Option JSVal) (_ctor : Option JSVal) : Bool :=
  jsInstanceOfObject v

/-- JS `ToInt32` of a value (NaN, `null`, `undefined` map to 0). -/
def jsToInt32 (v : Option JSVal) : Int :=
  match jsToNumber v with
  | some n => ofUint32 (toUint32 n)
  | none => 0

/-- JS `>=` on two number-or-NaN operands (`none` is NaN; any
comparison with NaN is false). -/
def jsNumGE (a b : Option Int) : Bool :=
  match a, b with
  | some m, some n => n ≤ m
  | _, _ => false

/-- The type-mismatch guard (src/index.js:244-261). -/
def ctnTypeMismatch (f : JSVal) (dv : Option JSVal) : Bool :=
  ((f.objHas "type" &&
      (!(jsLooseEq (some (.str (jsTypeof dv))) (f.objGet "type")) ||
        (f.objHas "instanceof" && !(jsInstanceOf dv (f.objGet "instanceof"))))) ||
    (((f.objHas "submodel" && !(jsLooseEq (f.objGet "submodel") (some .null))) ||
        (f.objHas "submodel_inline" &&
          !(jsLooseEq (f.objGet "submodel_inline") (some .null)))) &&
      (jsEqNull dv || !(jsInstanceOfObject dv)))) &&
  !(f.objHas "allownull" && jsTruthy (f.objGet "allownull") && jsEqNull dv) &&
  !(f.objHas "allow_null" && jsTruthy (f.objGet "allow_null") && jsEqNull dv)

/-- The unwritable-field guard (src/index.js:272-273). -/
def ctnUnwritable (f overrides : JSVal) : Bool :=
  (f.objHas "is_user_writable" &&
      jsLooseEq (f.objGet "is_user_writable") (some (.num 0))) ||
  (overrides.objHas "is_user_writable" &&
      jsLooseEq (overrides.objGet "is_user_writable") (some (.num 0)))

/-- The administrator-only guard (src/index.js:282-289); `secPresent`
is the `security &&` conjunct. -/
def ctnAdminOnlyFull (secPresent : Bool) (f overrides : JSVal)
    (target_user : JSVal) (operation : String) (original : JSVal)
    (pkey : String) (dv : Option JSVal) : Bool :=
  secPresent &&
  ((f.objHas "administrator_only" &&
      jsLooseEq (f.objGet "administrator_only") (some (.num 1))) ||
    (overrides.objHas "administrator_only" &&
      jsLooseEq (overrides.objGet "administrator_only") (some (.num 1)))) &&
  !(jsEqNull (some target_user)) &&
  ((operation == "patch") ||
    ((operation == "update") &&
      (jsEqNull (some original) || !(original.objHas pkey) ||
        !(jsLooseEq dv (original.objGet pkey)))) ||
    ((operation == "create") &&
      (!(f.objHas "default") || !(jsLooseEq dv (f.objGet "default_value")))))

/-- The immutable-field guard (src/index.js:305-309): the branch fires
on `update`/`patch` exactly when the original record is truthy and
holds a non-null value for the property — the proposed value is not
consulted. -/
def ctnImmutable (f overrides : JSVal) (operation : String) (original : JSVal)
    (pkey : String) : Bool :=
  ((f.objHas "immutable" && jsLooseEq (f.objGet "immutable") (some (.num 1))) ||
    (overrides.objHas "immutable" &&
      jsLooseEq (overrides.objGet "immutable") (some (.num 1)))) &&
  (((operation == "patch") && original.truthy && original.objHas pkey &&
      !(jsEqNull (original.objGet pkey))) ||
    ((operation == "update") && original.truthy && original.objHas pkey &&
      !(jsEqNull (original.objGet pkey))))

/-- The computed-field guard (src/index.js:312-313); the source tests
`overrides.computed == 0`, and the embedding mirrors that literally. -/
def ctnComputed (f overrides : JSVal) : Bool :=
  (f.objHas "computed" && jsLooseEq (f.objGet "computed") (some (.num 1))) ||
  (overrides.objHas "computed" &&
    jsLooseEq (overrides.objGet "computed") (some (.num 0)))

/-- The label-field guard (src/index.js:321-322); the source tests
`overrides.label == 0`, mirrored literally. -/
def ctnLabel (f overrides : JSVal) : Bool :=
  (f.objHas "label" && jsLooseEq (f.objGet "label") (some (.num 1))) ||
  (overrides.objHas "label" && jsLooseEq (overrides.objGet "label") (some (.num 0)))

/-- The deferred administrator check pushed onto `extraChecks`
(src/index.js:291-304): `undefined` (`none`) when the user is an
administrator, else a quiet `-1` or a rejection. -/
def ctnAdminCheck (s : Security) (target_user : JSVal) (dramatic : Bool)
    (pkey : String) : Except String (Option Int) :=
  match userIsAdministrator s target_user with
  | .error e => .error e
  | .ok is_administrator =>
    if is_administrator = 0 then
      if dramatic then
        .error ("Attempting to write to administrator-only field" ++ pkey ++ ".")
      else
        .ok (some (-1))
    else
      .ok none

/-- The deferred foreign-key check pushed onto `extraChecks`
(src/index.js:384-432): reference existence, then (on success) the
optional authority and recursion checks joined by `Promise.all` and
AND-reduced. -/
def ctnReferenceCheck (s : Security) (fuel : Nat) (f : JSVal) (pkey : String)
    (dv : JSVal) (target_user : JSVal) (dramatic : Bool) : Except String Int :=
  let check_authority := f.objHas "target_authority" &&
    !(jsEqNull (some target_user))
  let check_recursion := f.objHas "recursive_reference_check" &&
    jsNumGT (jsToNumber (f.objGet "recursive_reference_check")) (some 0)
  let refquery : JSVal := .obj [(s.id_name, dv)]
  let fresult : Except String Int :=
    match s.store.find (f.objGetD "target_class") refquery with
    | .ok resfind =>
      if resfind.objHas "data" && jsNumGT (jsLength (resfind.objGet "data")) (some 0) then
        .ok 0
      else if dramatic then
        .error "Missing reference target."
      else
        .ok (-1)
    | .error e => if dramatic then .error e else .ok (-1)
  match fresult with
  | .error e => .error e
  | .ok fr =>
    if fr = 0 then
      let mauth : List (Except String Int) :=
        if check_authority then
          [match accessLevelSlowWithUser s fuel target_user
              (f.objGetD "target_class") dv with
            | .ok privlev =>
              if !(jsNumGE (some (jsAnd privlev (jsToInt32 (f.objGet "target_authority"))))
                  (jsToNumber (f.objGet "target_authority"))) then
                if dramatic then .error "Insufficient authority on target record."
                else .ok (-1)
              else .ok 0
            | .error e => if dramatic then .error e else .ok (-1)]
        else []
      let mrec : List (Except String Int) :=
        if check_recursion then
          [match checkRecursiveDocumentDepth s (f.objGetD "target_class")
              dv pkey ∅ with
            | .raw _ =>
              -- unreachable for the fresh `{}` visited set the source
              -- passes; `.then` on a bare number would throw
              .error "TypeError: .then is not a function"
            | .promise (.ok reclev) =>
              if 0 ≤ reclev ∧ reclev < 0xFFFF then .ok 0
              else if dramatic then .error "References too deep."
              else .ok (-1)
            | .promise (.error e) => if dramatic then .error e else .ok (-1)]
        else []
      match promiseAll (mauth ++ mrec) with
      | .error e => .error e
      | .ok checkresults =>
        .ok (if checkresults.any (fun cv => decide (cv < 0)) then -1 else 0)
    else
      .ok fr

/-- `validateText` as called from the validation loop
(src/index.js:455) with the raw `validation` property: a non-string
rule tokenizes to no subrules (its `.length` is `undefined`), so every
value passes. -/
def validateTextV (rule : Option JSVal) (data : Option JSVal) :
    Except String Int :=
  match rule with
  | some (.str r) => validateText r data
  | _ => .ok 0

/-- `checkTypesNested(schema, data, exclusive, connections,
target_user, dramatic, operation, original, overlay_only, overrides)`
(src/index.js:226-470).  `sec` is the bound `this` when the engine
calls its own method and `none` for a bare call (src/index.js:235-237);
the unused `connections` argument is omitted.  The per-property `else
if` cascade, the deferred `extraChecks`, the validation loop over every
schema field, and the final `Promise.all` AND-reduction all mirror the
source; in particular the submodel recursion at src/index.js:370-372
passes the *parent* `overrides`, not the freshly built
`nest_overrides`, which the embedding keeps as the dead binding
`_nest_overrides`. -/
def checkTypesNested (sec : Option Security) :
    Nat → JSVal → JSVal → Bool → JSVal → Bool → String → JSVal → Bool →
    JSVal → Except String Int
  | 0, _, _, _, _, _, _, _, _, _ => .ok 0
  | fuel + 1, schema, data, exclusive, target_user, dramatic, operation,
      original, overlay_only, overrides =>
    if !(schema.objHas "fields") then
      .error "Called without fields."
    else
      let sfields := schema.objGetD "fields"
      let fieldStep : Sum (Except String Int) (List (Except String (Option Int))) →
          String × JSVal →
          Sum (Except String Int) (List (Except String (Option Int))) :=
        fun acc pr =>
          match acc with
          | .inl r => .inl r
          | .inr checks =>
            let pkey := pr.1
            if sfields.objHas pkey then
              let f := sfields.objGetD pkey
              let dv := data.objGet pkey
              if ctnTypeMismatch f dv then
                .inl (if dramatic then
                  .error ("Attempting to write a mismatched type for " ++ pkey ++ ".")
                else .ok (-1))
              else if ctnUnwritable f overrides then
                .inl (if dramatic then
                  .error ("Attempting to write to unwritable field " ++ pkey ++ ".")
                else .ok (-1))
              else if ctnAdminOnlyFull sec.isSome f overrides target_user
                  operation original pkey dv then
                .inr (checks ++ [match sec with
                  | some s => ctnAdminCheck s target_user dramatic pkey
                  | none => .ok none])
              else if ctnImmutable f overrides operation original pkey then
                .inl (.error ("Attempting to change an immutable field " ++ pkey ++ "."))
              else if ctnComputed f overrides then
                .inl (if dramatic then
                  .error ("Attempting to write to computed (virtual) field " ++ pkey ++ ".")
                else .ok (-1))
              else if ctnLabel f overrides then
                .inl (if dramatic then
                  .error ("Attempting to write to label field " ++ pkey ++ ".")
                else .ok (-1))
              else if f.objHas "submodel" || f.objHas "submodel_inline" then
                let subschemaR : Sum (Except String Int) JSVal :=
                  if f.objHas "submodel_inline" then
                    .inr (f.objGetD "submodel_inline")
                  else
                    match sec with
                    | some s =>
                      if s.models.objHas (jsKeyStringU (f.objGet "submodel")) then
                        .inr (s.models.objGetD (jsKeyStringU (f.objGet "submodel")))
                      else
                        .inl (if dramatic then .error "Bad model reference."
                          else .ok (-1))
                    | none =>
                      .inl (if dramatic then .error "Bad model reference."
                        else .ok (-1))
                match subschemaR with
                | .inl r => .inl r
                | .inr subschema =>
                  if subschema.objHas "fields" then
                    let _nest_overrides :=
                      ["is_user_writable", "administrator_only", "computed",
                        "label", "overlay"].foldl
                        (fun o name =>
                          if !(overrides.objHas name) && f.objHas name then
                            o.objSet name (f.objGetD name)
                          else o)
                        overrides
                    if jsInstanceOfObject dv && !(jsEqNull dv) then
                      .inr (checks ++
                        [(checkTypesNested sec fuel subschema (dv.getD .null)
                            exclusive target_user dramatic operation
                            (if !(jsEqNull (some original)) && original.objHas pkey
                              then original.objGetD pkey else .null)
                            overlay_only overrides).map some])
                    else
                      .inr checks
                  else
                    .inl (if dramatic then
                      .error "The model lacks a field specification."
                    else .ok (-1))
              else if sec.isSome && f.objHas "target_class" then
                .inr (checks ++ [match sec with
                  | some s =>
                    (ctnReferenceCheck s fuel f pkey (data.objGetD pkey)
                      target_user dramatic).map some
                  | none => .ok none])
              else
                .inr checks
            else if exclusive then
              .inl (if dramatic then
                .error "Attempting to write to undocumented field."
              else .ok (-1))
            else
              .inr checks
      match data.objFields.foldl fieldStep (.inr []) with
      | .inl r => r
      | .inr extraChecks =>
        let valStep : Option (Except String Int) → String × JSVal →
            Option (Except String Int) :=
          fun acc pr =>
            match acc with
            | some r => some r
            | none =>
              let skey := pr.1
              let f := sfields.objGetD skey
              let activeOverlay :=
                if overrides.objHas "overlay" then
                  jsTruthy (overrides.objGet "overlay")
                else
                  f.objHas "overlay" && jsTruthy (f.objGet "overlay")
              if f.objHas "validation" &&
                  ((!(operation == "patch") && !(overlay_only && !activeOverlay)) ||
                    data.objHas skey) then
                if ((f.objHas "allownull" && jsTruthy (f.objGet "allownull")) ||
                      (f.objHas "allow_null" && jsTruthy (f.objGet "allow_null"))) &&
                    data.objHas skey && jsEqNull (data.objGet skey) then
                  none
                else
                  match validateTextV (f.objGet "validation")
                      (if data.objHas skey then data.objGet skey
                        else some .null) with
                  | .error e => some (.error e)
                  | .ok v =>
                    if v < 0 then
                      some (if dramatic then
                        .error ("Validation failed on " ++ skey ++ " on rule " ++
                          jsKeyStringU (f.objGet "validation") ++ ".")
                      else .ok (-1))
                    else
                      none
              else
                none
        match sfields.objFields.foldl valStep none with
        | some r => r
        | none =>
          match promiseAll extraChecks with
          | .error e => .error e
          | .ok checkresults =>
            .ok (if checkresults.any (fun cv =>
                match cv with
                | some v => decide (v < 0)
                | none => false) then -1 else 0)

/-!
## Lock Coordinator (`doPromiseWithLock`, src/index.js:2546-2591)

With a timeout supplied, the function arms a timer and requests the
lock; both the timer handler (src/index.js:2559-2567) and the grant
handler (src/index.js:2570-2588) enter a critical section on the fresh
`valid_lock` before consulting and clearing the shared guard flag
`task_valid`, so every execution is equivalent to running the two
handler bodies atomically in some order.  The embedding is a state
machine over that order: a schedule is the list of critical-section
entries, each event executes one handler body, and the observable state
records the guard flag, the returned promise's settlement (a JS promise
keeps its first settlement), how many times the work callback `tododo`
ran, and whether the outer lock was released. -/

/-- The two events that race in `doPromiseWithLock` when a timeout is
supplied. -/
inductive DPWLEvent where
  | timeoutFires
  | lockGranted

/-- The observable state of one `doPromiseWithLock` invocation. -/
structure DPWLState where
  task_valid : Bool
  settled : Option (Except String Int)
  work_runs : Nat
  released : Bool

/-- A promise's first settlement wins; later settlements are ignored. -/
def settleFirst (s : Option (Except String Int)) (r : Except String Int) :
    Option (Except String Int) :=
  match s with
  | none => some r
  | some x => some x

/-- One critical section of `doPromiseWithLock`: the timer handler
rejects with the timeout error and invalidates the task
(src/index.js:2561-2564); the grant handler runs the work exactly when
the task is still valid, settling the promise with the work's outcome
and releasing the lock (src/index.js:2577-2580), and otherwise releases
the lock unused (src/index.js:2582-2583). -/
def dpwlStep (work : Except String Int) (s : DPWLState) :
    DPWLEvent → DPWLState
  | .timeoutFires =>
    if s.task_valid then
      { s with
        task_valid := false,
        settled := settleFirst s.settled (.error "The operation timed out.") }
    else
      s
  | .lockGranted =>
    if s.task_valid then
      { s with
        task_valid := false,
        work_runs := s.work_runs + 1,
        settled := settleFirst s.settled work,
        released := true }
    else
      { s with released := true }

/-- The initial state: guard valid, promise pending, work not run,
lock not released. -/
def dpwlInit : DPWLState :=
  ⟨true, none, 0, false⟩

/-- Run one `doPromiseWithLock` invocation under a given serialization
of the timer and grant critical sections. -/
def dpwlRun (work : Except String Int) (events : List DPWLEvent) : DPWLState :=
  events.foldl (dpwlStep work) dpwlInit

/-!
## Supporting lemmas
-/

/-- The guard invariant of `doPromiseWithLock`: the work counter never
exceeds one, and while `task_valid` still holds the work has not run. -/
theorem dpwlAux (work : Except String Int) (events : List DPWLEvent) (s : DPWLState)
    (h : s.work_runs ≤ 1 ∧ (s.task_valid = true → s.work_runs = 0)) :
    (events.foldl (dpwlStep work) s).work_runs ≤ 1 ∧
      ((events.foldl (dpwlStep work) s).task_valid = true →
        (events.foldl (dpwlStep work) s).work_runs = 0) := by
  induction events generalizing s with
  | nil => exact h
  | cons e rest ih =>
    simp only [List.foldl_cons]
    apply ih
    obtain ⟨tv, st, wr, rl⟩ := s
    obtain ⟨h1, h2⟩ := h
    simp only at h1 h2
    cases tv with
    | true =>
      have h0 : wr = 0 := h2 rfl
      cases e <;> simp [dpwlStep, h0]
    | false =>
      cases e <;> simp [dpwlStep] <;> exact h1

/-- A successful property lookup implies property presence. -/
theorem objHas_of_objGet {o : JSVal} {k : String} {v : JSVal}
    (h : o.objGet k = some v) : o.objHas k = true := by
  cases o with
  | obj fs =>
    simp only [JSVal.objGet, Option.map_eq_some'] at h
    obtain ⟨p, hp, -⟩ := h
    have hmem := List.mem_of_find?_eq_some hp
    have hpk := List.find?_some hp
    simp only [JSVal.objHas]
    exact List.any_eq_true.mpr ⟨p, hmem, hpk⟩
  | null => simp [JSVal.objGet] at h
  | bool b => simp [JSVal.objGet] at h
  | num n => simp [JSVal.objGet] at h
  | str s => simp [JSVal.objGet] at h
  | arr xs => simp [JSVal.objGet] at h

/-- A present property names some pair of the property list. -/
theorem objHasObj_exists {fs : List (String × JSVal)} {k : String}
    (h : (JSVal.obj fs).objHas k = true) : ∃ p ∈ fs, p.1 = k := by
  simp only [JSVal.objHas, List.any_eq_true] at h
  obtain ⟨p, hp, hpk⟩ := h
  exact ⟨p, hp, by simpa using hpk⟩

/-- The overlay test `'overlay' in schema[ci] && schema[ci].overlay` of
`splitPatch` and `mergeSchemedPatch`, as a predicate on the key. -/
def ovFlag (schema : JSVal) (k : String) : Bool :=
  (schema.objGetD k).objHas "overlay" && jsTruthy ((schema.objGetD k).objGet "overlay")

/-- The predicate selecting the properties `splitPatch` sends to
`baseData`. -/
def splitBasePred (schema : JSVal) (p : String × JSVal) : Bool :=
  schema.objHas p.1 && !(ovFlag schema p.1)

/-- The predicate selecting the properties `splitPatch` sends to
`overlayData`. -/
def splitOvPred (schema : JSVal) (p : String × JSVal) : Bool :=
  schema.objHas p.1 && ovFlag schema p.1

theorem any_key_eq_false {fs : List (String × JSVal)} {k : String} :
    (fs.any (fun p => p.1 == k) = false) ↔ k ∉ fs.map Prod.fst := by
  simp [List.any_eq_false, List.mem_map]
  constructor
  · intro h x hx
    exact h k x hx rfl
  · intro h a b hab hak
    exact h b (hak ▸ hab)

/-- Assigning a fresh key appends the property. -/
theorem objSetL_append {fs : List (String × JSVal)} {k : String} {v : JSVal}
    (h : k ∉ fs.map Prod.fst) : JSVal.objSetL fs k v = fs ++ [(k, v)] := by
  rw [JSVal.objSetL, if_neg]
  simp [any_key_eq_false.mpr h]

/-- `splitPatch`'s loop computes the two filters of the input when the
input keys are distinct and fresh relative to the accumulators. -/
theorem splitPatchLoop_eq (schema : JSVal) (fs : List (String × JSVal)) :
    ∀ (b o : List (String × JSVal)),
    (fs.map Prod.fst).Nodup →
    (∀ p ∈ fs, p.1 ∉ b.map Prod.fst) →
    (∀ p ∈ fs, p.1 ∉ o.map Prod.fst) →
    splitPatchLoop schema fs (.obj b) (.obj o) =
      (.obj (b ++ fs.filter (splitBasePred schema)),
        .obj (o ++ fs.filter (splitOvPred schema))) := by
  induction fs with
  | nil => intro b o _ _ _; simp [splitPatchLoop]
  | cons p rest ih =>
    intro b o hnd hb ho
    obtain ⟨ci, v⟩ := p
    have hnd' : (rest.map Prod.fst).Nodup := (List.nodup_cons.mp hnd).2
    have hci : ci ∉ rest.map Prod.fst := (List.nodup_cons.mp hnd).1
    rw [splitPatchLoop]
    by_cases h1 : schema.objHas ci = true
    · by_cases h2 : ((schema.objGetD ci).objHas "overlay" &&
          jsTruthy ((schema.objGetD ci).objGet "overlay")) = true
      · rw [if_pos h1, if_pos h2]
        have hov : ovFlag schema ci = true := h2
        have hset : (JSVal.obj o).objSet ci v = .obj (o ++ [(ci, v)]) := by
          simp [JSVal.objSet, objSetL_append (ho (ci, v) (by simp))]
        rw [hset, ih (b := b) (o := o ++ [(ci, v)]) hnd'
          (fun q hq => hb q (List.mem_cons_of_mem _ hq))
          (fun q hq => by
            simp only [List.map_append, List.mem_append]
            rintro (hqo | hqc)
            · exact ho q (List.mem_cons_of_mem _ hq) hqo
            · simp at hqc
              exact hci (hqc ▸ List.mem_map_of_mem Prod.fst hq))]
        have hbp : splitBasePred schema (ci, v) = false := by
          simp [splitBasePred, h1, hov]
        have hop : splitOvPred schema (ci, v) = true := by
          simp [splitOvPred, h1, hov]
        simp [hbp, hop]
      · rw [if_pos h1, if_neg (by simpa using h2)]
        have hov : ovFlag schema ci = false := by
          simpa [ovFlag] using h2
        have hset : (JSVal.obj b).objSet ci v = .obj (b ++ [(ci, v)]) := by
          simp [JSVal.objSet, objSetL_append (hb (ci, v) (by simp))]
        rw [hset, ih (b := b ++ [(ci, v)]) (o := o) hnd'
          (fun q hq => by
            simp only [List.map_append, List.mem_append]
            rintro (hqb | hqc)
            · exact hb q (List.mem_cons_of_mem _ hq) hqb
            · simp at hqc
              exact hci (hqc ▸ List.mem_map_of_mem Prod.fst hq))
          (fun q hq => ho q (List.mem_cons_of_mem _ hq))]
        have hbp : splitBasePred schema (ci, v) = true := by
          simp [splitBasePred, h1, hov]
        have hop : splitOvPred schema (ci, v) = false := by
          simp [splitOvPred, h1, hov]
        simp [hbp, hop]
    · rw [if_neg (by simpa using h1)]
      rw [ih (b := b) (o := o) hnd'
        (fun q hq => hb q (List.mem_cons_of_mem _ hq))
        (fun q hq => ho q (List.mem_cons_of_mem _ hq))]
      have h1f : schema.objHas ci = false := by simpa using h1
      have hbp : splitBasePred schema (ci, v) = false := by
        simp [splitBasePred, h1f]
      have hop : splitOvPred schema (ci, v) = false := by
        simp [splitOvPred, h1f]
      simp [hbp, hop]

/-- `mergePatch`'s copy loop appends fresh, distinct keys. -/
theorem foldl_objSet_append (L : List (String × JSVal)) :
    ∀ (a : List (String × JSVal)),
    (∀ p ∈ L, p.1 ∉ a.map Prod.fst) →
    (L.map Prod.fst).Nodup →
    L.foldl (fun (acc : JSVal) p => acc.objSet p.1 p.2) (.obj a) = .obj (a ++ L) := by
  induction L with
  | nil => intro a _ _; simp
  | cons p rest ih =>
    intro a ha hnd
    obtain ⟨k, v⟩ := p
    have hset : (JSVal.obj a).objSet k v = .obj (a ++ [(k, v)]) := by
      simp [JSVal.objSet, objSetL_append (ha (k, v) (by simp))]
    simp only [List.foldl_cons, hset]
    rw [ih (a ++ [(k, v)])
      (fun q hq => by
        simp only [List.map_append, List.mem_append]
        rintro (hqa | hqk)
        · exact ha q (List.mem_cons_of_mem _ hq) hqa
        · simp at hqk
          have hmm : q.1 ∈ rest.map Prod.fst := List.mem_map_of_mem Prod.fst hq
          rw [hqk] at hmm
          exact (List.nodup_cons.mp hnd).1 hmm)
      (List.nodup_cons.mp hnd).2]
    simp

/-- Lookup in a filtered object, when the filter predicate depends only
on the key. -/
theorem objGet_filter (q : String × JSVal → Bool) (qk : String → Bool)
    (hq : ∀ p, q p = qk p.1) (fs : List (String × JSVal)) (k : String) :
    (JSVal.obj (fs.filter q)).objGet k =
      (if qk k then (JSVal.obj fs).objGet k else none) := by
  induction fs with
  | nil => simp [JSVal.objGet]
  | cons p rest ih =>
    by_cases hqp : q p = true
    · rw [List.filter_cons_of_pos hqp]
      by_cases hk : (p.1 == k) = true
      · have hke : p.1 = k := by simpa using hk
        have hqkk : qk k = true := by rw [← hke, ← hq p, hqp]
        simp [JSVal.objGet, List.find?, hk, hqkk]
      · simp only [JSVal.objGet, List.find?, hk] at ih ⊢
        exact ih
    · rw [List.filter_cons_of_neg (by simpa using hqp)]
      rw [ih]
      by_cases hqk : qk k = true
      · have hqpf : q p = false := by simpa using hqp
        have hk : (p.1 == k) = false := by
          rcases Bool.eq_false_or_eq_true (p.1 == k) with ht | hf
          · exfalso
            have hke : p.1 = k := by simpa using ht
            rw [hq p, hke] at hqpf
            simp [hqk] at hqpf
          · exact hf
        simp [JSVal.objGet, List.find?, hk, hqk]
      · simp [hqk]

/-- Lookup distributes over property-list concatenation. -/
theorem objGet_append (A B : List (String × JSVal)) (k : String) :
    (JSVal.obj (A ++ B)).objGet k =
      ((JSVal.obj A).objGet k).or ((JSVal.obj B).objGet k) := by
  simp only [JSVal.objGet, List.find?_append]
  cases A.find? (fun p => p.1 == k) <;> simp

/-- `splitPatch` on a duplicate-free record is the pair of filters. -/
theorem splitPatch_eq (schema : JSVal) (fs : List (String × JSVal))
    (hnd : (fs.map Prod.fst).Nodup) :
    splitPatch schema (.obj fs) =
      ⟨.obj fs, .obj (fs.filter (splitBasePred schema)),
        .obj (fs.filter (splitOvPred schema))⟩ := by
  unfold splitPatch
  have : (JSVal.obj fs).objFields = fs := rfl
  rw [this, splitPatchLoop_eq schema fs [] [] hnd (by simp) (by simp)]
  simp

theorem objHas_obj_nil (k : String) : (JSVal.obj []).objHas k = false := rfl

theorem objHas_obj_cons (k' : String) (v' : JSVal) (fs : List (String × JSVal))
    (k : String) : (JSVal.obj ((k', v') :: fs)).objHas k =
      ((k' == k) || (JSVal.obj fs).objHas k) := by
  simp [JSVal.objHas]

theorem objGet_obj_nil (k : String) : (JSVal.obj []).objGet k = none := rfl

theorem objGet_obj_cons (k' : String) (v' : JSVal) (fs : List (String × JSVal))
    (k : String) : (JSVal.obj ((k', v') :: fs)).objGet k =
      (if k' == k then some v' else (JSVal.obj fs).objGet k) := by
  by_cases h : (k' == k) = true <;> simp [JSVal.objGet, List.find?, h]

/-!
## Concrete configurations used by the verification

A handful of small Record Stores and security contexts exercising the
privilege resolver and the depth checker on concrete data.
-/

/-- A store with a ship `s1` owned by partner `p1`, and a direct
authority of privilege 6 (read+write) for user `u1` on `p1`. -/
def storeTransitMask : RecordStore where
  get := fun cls id =>
    match cls, id with
    | .str "ships", .str "s1" => .ok (.obj [("owner_id", .str "p1")])
    | .str "partners", .str "p1" => .ok (.obj [])
    | _, _ => .error "NotFound"
  find := fun cls q =>
    match cls, q.objGet "user_id", q.objGet "target_class", q.objGet "target_id" with
    | .str "authorities", some (.str "u1"), some (.str "partners"), some (.str "p1") =>
      .ok (.obj [("data", .arr [.obj [("privilege", .num 6)]])])
    | _, _, _, _ => .ok (.obj [("data", .arr [])])

/-- A transit configuration on `ships` pointing to `partners` through
`owner_id` with transit mask 2. -/
def secTransitMask : Security where
  store := storeTransitMask
  id_name := "_id"
  models := .obj []
  data_schema := .obj []
  privilege_transit := .obj [("ships", .arr [.obj [("key", .str "owner_id"),
    ("class", .str "partners"), ("mask", .num 2)]])]
  user_self_access := none
  user_administrator_flag_name := none

/-- A security context whose Record Store rejects every request. -/
def secNoRecord : Security where
  store := { get := fun _ _ => .error "NotFound", find := fun _ _ => .error "NotFound" }
  id_name := "_id"
  models := .obj []
  data_schema := .obj []
  privilege_transit := .obj []
  user_self_access := none
  user_administrator_flag_name := none

/-- A store granting user `u1` exactly the bitmask 1 (only bit 0) on
the record `(things, t1)`. -/
def storeBitZero : RecordStore where
  get := fun cls id =>
    match cls, id with
    | .str "things", .str "t1" => .ok (.obj [])
    | _, _ => .error "NotFound"
  find := fun cls q =>
    match cls, q.objGet "user_id", q.objGet "target_class", q.objGet "target_id" with
    | .str "authorities", some (.str "u1"), some (.str "things"), some (.str "t1") =>
      .ok (.obj [("data", .arr [.obj [("privilege", .num 1)]])])
    | _, _, _, _ => .ok (.obj [("data", .arr [])])

/-- The security context over `storeBitZero`. -/
def secBitZero : Security where
  store := storeBitZero
  id_name := "_id"
  models := .obj []
  data_schema := .obj []
  privilege_transit := .obj []
  user_self_access := none
  user_administrator_flag_name := none

/-- A store with a document `d1` whose `base_id` chain field points
back to `d1` itself. -/
def storeSelfLoop : RecordStore where
  get := fun cls id =>
    match cls, id with
    | .str "docs", .str "d1" => .ok (.obj [("base_id", .str "d1")])
    | _, _ => .error "NotFound"
  find := fun _ _ => .ok (.obj [("data", .arr [])])

/-- The security context over `storeSelfLoop`. -/
def secSelfLoop : Security where
  store := storeSelfLoop
  id_name := "_id"
  models := .obj []
  data_schema := .obj []
  privilege_transit := .obj []
  user_self_access := none
  user_administrator_flag_name := none

/-- A store with documents `d1` and `d2` whose `base_id` chain fields
point at each other (a cycle of length two). -/
def storeTwoCycle : RecordStore where
  get := fun cls id =>
    match cls, id with
    | .str "docs", .str "d1" => .ok (.obj [("base_id", .str "d2")])
    | .str "docs", .str "d2" => .ok (.obj [("base_id", .str "d1")])
    | _, _ => .error "NotFound"
  find := fun _ _ => .ok (.obj [("data", .arr [])])

/-- The security context over `storeTwoCycle`. -/
def secTwoCycle : Security where
  store := storeTwoCycle
  id_name := "_id"
  models := .obj []
  data_schema := .obj []
  privilege_transit := .obj []
  user_self_access := none
  user_administrator_flag_name := none

/-- A visited set of 65535 distinct keys. -/
def bigVisited : Finset String :=
  (Finset.range 65535).image (fun n => String.mk (List.replicate n 'a'))

theorem replicateStr_injective :
    Function.Injective (fun n => String.mk (List.replicate n 'a')) := by
  intro a b h
  have hdata : List.replicate a 'a' = List.replicate b 'a' := congrArg String.data h
  have := congrArg List.length hdata
  simpa using this

theorem bigVisited_card : bigVisited.card = 65535 := by
  rw [bigVisited, Finset.card_image_of_injective _ replicateStr_injective,
    Finset.card_range]

theorem d1_not_mem_bigVisited : "d1" ∉ bigVisited := by
  simp only [bigVisited, Finset.mem_image, Finset.mem_range]
  rintro ⟨n, -, h⟩
  have hdata : List.replicate n 'a' = "d1".data := congrArg String.data h
  have hmem : 'd' ∈ List.replicate n 'a' := by
    rw [hdata]
    decide
  exact absurd (List.eq_of_mem_replicate hmem) (by decide)

/-- A fresh id over an oversized visited set returns the bare `-3`. -/
theorem depthGo_raw_neg3 (sec : Security) (fuel : Nat) (cls id : JSVal)
    (fld : String) (visited : Finset String)
    (h1 : jsKeyString id ∉ visited) (h2 : 0xFFFF ≤ visited.card) :
    checkRecursiveDocumentDepthGo sec (fuel + 1) cls id fld visited =
      .raw (-3) := by
  rw [checkRecursiveDocumentDepthGo]
  simp [h1, h2]

/-- The schema of a single immutable string field `f`. -/
def schemaImmutableF : JSVal :=
  .obj [("fields", .obj [("f", .obj [("immutable", .num 1)])])]

/-- A field map with a base field `a` and an overlay field `b`. -/
def schemaBaseOverlay : JSVal :=
  .obj [("a", .obj []), ("b", .obj [("overlay", .num 1)])]

/-- A record assigning 1 to `a` and 2 to `b`. -/
def recordAB : List (String × JSVal) :=
  [("a", .num 1), ("b", .num 2)]

/-!
## The claims
-/

/-- C1.  The claim says the transitive contribution OR-ed into the
accumulator equals `(parentLevel & ~1) & mask`.  The code computes the
masked value into a dead local and ORs the *unmasked* `parentLevel & ~1`
(src/index.js:1454-1457).  On the concrete configuration — parent
privilege 6, transit mask 2 — the claim predicts bitmask
`(6 & ~1) & 2 = 2`, but `accessLevelSlow` resolves 6; the last conjunct
shows the accumulation loop is independent of the masks in general. -/
theorem accessLevelSlow_transit_mask_discarded :
    accessLevelSlow secTransitMask 2 (.str "u1") (.str "ships") (.str "s1") =
      .ok 6 ∧
    jsAnd (jsAnd 6 (-2)) 2 = 2 ∧
    (∀ levels parents, transitAccumulate levels parents =
      (levels.zip parents).foldl (fun a cp => jsOr a (jsAnd cp.1 (-2))) 0) :=
  ⟨rfl, rfl, fun _ _ => rfl⟩

/-- C2.  The claim says `accessLevelSlow` returns a failure (a rejected
result) when the target record does not exist.  The existence check
`p0` does re-raise the Record Store error (src/index.js:1419-1420), but
the final `Promise.all` handler catches every rejection and resolves to
`0` (src/index.js:1469): against a store on which every `get` fails,
`accessLevelSlow` resolves `0` for every recursion budget and user. -/
theorem accessLevelSlow_missing_record_resolves_zero :
    secNoRecord.store.get (.str "ships") (.str "s1") = .error "NotFound" ∧
    ∀ (fuel : Nat) (user : JSVal),
      accessLevelSlow secNoRecord fuel user (.str "ships") (.str "s1") = .ok 0 :=
  ⟨rfl, fun fuel user => by cases fuel with
    | zero => rfl
    | succ n => rfl⟩

/-- C3 counterexample.  The claim says `userCanRead` is true exactly
when bit 1 (value 2) is set, and that a bitmask whose only set bit is
bit 0 does not grant read.  With a direct authority of privilege 1 the
combined bitmask is 1 — bit 1 clear — yet `userCanRead` resolves 1,
because the source tests `x & 0x3` (src/index.js:1508). -/
theorem userCanRead_bit_zero_only_counterexample :
    accessLevelSlowWithUser secBitZero 2 (.str "u1") (.str "things") (.str "t1") =
      .ok 1 ∧
    jsAnd 1 2 = 0 ∧
    userCanRead secBitZero 2 (.str "u1") (.str "things") (.str "t1") = .ok 1 :=
  ⟨rfl, rfl, rfl⟩

/-- C3 amended.  For a non-null acting user whose combined bitmask
computation resolves to `x`, `userCanRead` resolves 1 exactly when
`x & 0x3` is nonzero — bit 0 *or* bit 1; in particular a bitmask whose
only set bit is bit 0 does grant read. -/
theorem userCanRead_iff_low_two_bits (sec : Security) (fuel : Nat)
    (u c i : JSVal) (x : Int)
    (hu : jsEqNull (some u) = false)
    (hx : accessLevelSlowWithUser sec fuel u c i = .ok x) :
    (userCanRead sec fuel u c i = .ok 1 ↔ jsAnd x 3 ≠ 0) := by
  by_cases h : jsAnd x 3 = 0 <;> simp [userCanRead, hu, hx, h]

/-- Witness for the C3 amended theorem at the concrete bit-0-only
configuration. -/
theorem userCanRead_iff_low_two_bits_witness :
    jsEqNull (some (.str "u1")) = false ∧
    (userCanRead secBitZero 2 (.str "u1") (.str "things") (.str "t1") = .ok 1 ↔
      jsAnd 1 3 ≠ 0) :=
  ⟨rfl, userCanRead_iff_low_two_bits secBitZero 2 (.str "u1") (.str "things")
    (.str "t1") 1 rfl rfl⟩

/-- C4 counterexample.  The claim says the immutable check fails
exactly when the proposed value differs from the original.  First
conjunct: a `patch` whose proposed value for `f` *equals* the original
non-null value is still rejected.  Second conjunct: a `patch` whose
proposed value *differs* from a null original value passes.  The
source's guard consults only `original[pkey] != null`, never the
proposed value (src/index.js:305-309). -/
theorem checkTypesNested_immutable_counterexample :
    checkTypesNested none 2 schemaImmutableF (.obj [("f", .str "a")]) true
      .null true "patch" (.obj [("f", .str "a")]) false (.obj []) =
      .error "Attempting to change an immutable field f." ∧
    checkTypesNested none 2 schemaImmutableF (.obj [("f", .str "b")]) true
      .null true "patch" (.obj [("f", JSVal.null)]) false (.obj []) = .ok 0 :=
  ⟨rfl, rfl⟩

/-- C4 amended.  On `update`/`patch`, `checkTypesNested` rejects a
schema-immutable field exactly when the original record holds a
non-null value for it, regardless of the proposed value; the rejection
is unconditional — it does not consult the security context, the acting
user (hence any administrator status), or the `dramatic` flag. -/
theorem checkTypesNested_immutable_nonnull_original (sec : Option Security)
    (fuel : Nat) (user : JSVal) (dramatic exclusive : Bool) (op : String)
    (k : String) (v o : JSVal) (hop : op = "update" ∨ op = "patch") :
    checkTypesNested sec (fuel + 1)
      (.obj [("fields", .obj [(k, .obj [("immutable", .num 1)])])])
      (.obj [(k, v)]) exclusive user dramatic op o false (.obj []) =
      (if o.truthy && o.objHas k && !(jsEqNull (o.objGet k)) then
        .error ("Attempting to change an immutable field " ++ k ++ ".")
      else .ok 0) := by
  rcases hop with h | h <;> subst h <;>
    by_cases hT : o.truthy = true <;>
    by_cases hH : o.objHas k = true <;>
    by_cases hN : jsEqNull (o.objGet k) = true <;>
    simp [checkTypesNested, ctnTypeMismatch, ctnUnwritable, ctnAdminOnlyFull,
      ctnImmutable, ctnComputed, ctnLabel, objHas_obj_cons, objHas_obj_nil,
      objGet_obj_cons, objGet_obj_nil, JSVal.objGetD, JSVal.objFields,
      promiseAll, validateTextV, jsLooseEq, hT, hH, hN]

/-- Witness for the C4 amended theorem: a `patch` of `f` against an
original with a non-null `f` is rejected. -/
theorem checkTypesNested_immutable_nonnull_original_witness :
    ("patch" = "update" ∨ ("patch" : String) = "patch") ∧
    checkTypesNested none 1
      (.obj [("fields", .obj [("f", .obj [("immutable", .num 1)])])])
      (.obj [("f", .str "y")]) true JSVal.null true "patch"
      (.obj [("f", .str "x")]) false (.obj []) =
      .error "Attempting to change an immutable field f." :=
  ⟨Or.inr rfl,
    (checkTypesNested_immutable_nonnull_original none 0 JSVal.null true true
      "patch" "f" (.str "y") (.obj [("f", .str "x")]) (Or.inr rfl)).trans
      (by rfl)⟩

/-- C5.  The claim says `validateText` applies `max`/`min`/`step` to
values of numeric type.  The source dispatches on `typeof('data')` —
the string literal — at src/index.js:133 and 199, so the numeric branch
is unreachable: a number that exceeds `max`, undercuts `min`, or breaks
`step` still passes (first three conjuncts), while the same `max` rule
does fail an over-long string through the always-taken string branch
(last conjunct). -/
theorem validateText_numeric_subrules_unapplied :
    validateText "max:5" (some (.num 10)) = .ok 0 ∧
    validateText "min:5" (some (.num 2)) = .ok 0 ∧
    validateText "step:3" (some (.num 4)) = .ok 0 ∧
    validateText "max:5" (some (.str "abcdef")) = .ok (-1) :=
  ⟨rfl, rfl, rfl, by rfl⟩

/-- C6.  The claim says that after a subrule value with an unterminated
single quote no further subrules are parsed.  The quote scanner
compares `text[offset]` — the fixed token start — instead of
`text[toffset]` (src/index.js:44-52), so on `"a:'x|b"` the scan skips
by twos, lands on the `|`, and the later subrule `b` *is* parsed (first
conjunct).  The documented lenient behavior does occur when the scan
hits the end of the string, as on `"a:'"` (second conjunct, no error
and an empty remainder). -/
theorem tokenizeValidationRule_unterminated_quote :
    tokenizeValidationRule "a:'x|b" = [["a", "'x"], ["b"]] ∧
    tokenizeValidationRule "a:'" = [["a"]] :=
  ⟨rfl, rfl⟩

/-- C7.  The claim says a chain leading back to a visited id makes
`checkRecursiveDocumentDepth` resolve the cycle code `-2` — in
particular on a self-loop — and a visited set of at least 65535 ids
yields `-3`.  The guards return those codes as *bare numbers*
(src/index.js:1359-1360, second and third conjuncts), and the
recursive call site (line 1368) calls `.then` on them: a self-loop
therefore makes the returned promise *reject* with a `TypeError`
(first conjunct), and a cycle of length two resolves `-1` — the Record
Store error code — through the handler at line 1371 (last conjunct).
The code never resolves `-2` through the chain as the claim asserts. -/
theorem checkRecursiveDocumentDepth_cycle_breaks_promise_chain :
    checkRecursiveDocumentDepth secSelfLoop (.str "docs") (.str "d1") "base_id"
      ∅ = .promise (.error "TypeError: .then is not a function") ∧
    checkRecursiveDocumentDepth secSelfLoop (.str "docs") (.str "d1") "base_id"
      {"d1"} = .raw (-2) ∧
    checkRecursiveDocumentDepth secSelfLoop (.str "docs") (.str "d1") "base_id"
      bigVisited = .raw (-3) ∧
    checkRecursiveDocumentDepth secTwoCycle (.str "docs") (.str "d1") "base_id"
      ∅ = .promise (.ok (-1)) :=
  ⟨rfl, rfl,
    depthGo_raw_neg3 secSelfLoop 0xFFFF (.str "docs") (.str "d1") "base_id"
      bigVisited d1_not_mem_bigVisited (le_of_eq bigVisited_card.symm),
    rfl⟩

/-- C8.  Splitting a duplicate-free record whose keys all belong to the
schema and merging the two halves back reconstructs the record: every
lookup agrees with the original, and the merged key list is a
permutation of the original key list. -/
theorem splitPatch_mergePatch_roundtrip (schema : JSVal)
    (fs : List (String × JSVal))
    (hnd : (fs.map Prod.fst).Nodup)
    (hsub : ∀ p ∈ fs, schema.objHas p.1 = true) :
    (∀ k, (mergePatch (splitPatch schema (.obj fs)).baseData
        (splitPatch schema (.obj fs)).overlayData).objGet k =
      (JSVal.obj fs).objGet k) ∧
    List.Perm (mergePatch (splitPatch schema (.obj fs)).baseData
        (splitPatch schema (.obj fs)).overlayData).objKeys
      (JSVal.obj fs).objKeys := by
  rw [splitPatch_eq schema fs hnd]
  have hBnd : ((fs.filter (splitBasePred schema)).map Prod.fst).Nodup :=
    hnd.sublist ((fs.filter_sublist).map Prod.fst)
  have hOnd : ((fs.filter (splitOvPred schema)).map Prod.fst).Nodup :=
    hnd.sublist ((fs.filter_sublist).map Prod.fst)
  have hdisj : ∀ p ∈ fs.filter (splitOvPred schema),
      p.1 ∉ (fs.filter (splitBasePred schema)).map Prod.fst := by
    intro p hp hmem
    have hpq := List.of_mem_filter hp
    obtain ⟨q, hq, hqk⟩ := List.mem_map.mp hmem
    have hqb := List.of_mem_filter hq
    simp only [splitBasePred, splitOvPred, Bool.and_eq_true] at hpq hqb
    rw [hqk] at hqb
    rw [hpq.2] at hqb
    simp at hqb
  have hmerge : mergePatch (.obj (fs.filter (splitBasePred schema)))
      (.obj (fs.filter (splitOvPred schema))) =
      .obj (fs.filter (splitBasePred schema) ++ fs.filter (splitOvPred schema)) := by
    unfold mergePatch
    have h1 : (JSVal.obj (fs.filter (splitBasePred schema))).objFields =
      fs.filter (splitBasePred schema) := rfl
    have h2 : (JSVal.obj (fs.filter (splitOvPred schema))).objFields =
      fs.filter (splitOvPred schema) := rfl
    rw [h1, h2, foldl_objSet_append _ [] (by simp) hBnd]
    simp only [List.nil_append]
    rw [foldl_objSet_append _ _ hdisj hOnd]
  simp only [hmerge]
  have hOeq : fs.filter (splitOvPred schema) =
      fs.filter (fun p => !(splitBasePred schema p)) :=
    List.filter_congr (fun p hp => by
      simp [splitOvPred, splitBasePred, hsub p hp])
  constructor
  · intro k
    rw [objGet_append]
    rw [objGet_filter (splitBasePred schema)
      (fun k => schema.objHas k && !(ovFlag schema k)) (fun p => rfl) fs k]
    rw [objGet_filter (splitOvPred schema)
      (fun k => schema.objHas k && ovFlag schema k) (fun p => rfl) fs k]
    by_cases hhas : schema.objHas k = true
    · by_cases hov : ovFlag schema k = true
      · simp [hhas, hov]
      · simp [hhas, hov]
    · have hget : (JSVal.obj fs).objGet k = none := by
        cases hg : (JSVal.obj fs).objGet k with
        | none => rfl
        | some v =>
          exfalso
          obtain ⟨p, hp, hpk⟩ := objHasObj_exists (objHas_of_objGet hg)
          exact hhas (hpk ▸ hsub p hp)
      simp [hhas, hget]
  · have hperm : List.Perm (fs.filter (splitBasePred schema) ++
        fs.filter (splitOvPred schema)) fs := by
      rw [hOeq]
      exact List.filter_append_perm (splitBasePred schema) fs
    have := hperm.map Prod.fst
    simpa [JSVal.objKeys] using this

/-- Witness for C8 on the two-field base/overlay record. -/
theorem splitPatch_mergePatch_roundtrip_witness :
    (mergePatch (splitPatch schemaBaseOverlay (.obj recordAB)).baseData
        (splitPatch schemaBaseOverlay (.obj recordAB)).overlayData).objGet "b" =
      (JSVal.obj recordAB).objGet "b" ∧
    List.Perm (mergePatch (splitPatch schemaBaseOverlay (.obj recordAB)).baseData
        (splitPatch schemaBaseOverlay (.obj recordAB)).overlayData).objKeys
      (JSVal.obj recordAB).objKeys :=
  ⟨(splitPatch_mergePatch_roundtrip schemaBaseOverlay recordAB (by decide)
      (by decide)).1 "b",
    (splitPatch_mergePatch_roundtrip schemaBaseOverlay recordAB (by decide)
      (by decide)).2⟩

/-- C9.  In every serialization of the timeout and lock-grant critical
sections of `doPromiseWithLock`, the work callback runs at most once
(first conjunct); when the timeout enters first and the grant arrives
afterwards, the returned promise is rejected with the timeout error,
the work never ran, and the lock is released unused (second
conjunct). -/
theorem doPromiseWithLock_work_at_most_once :
    (∀ (work : Except String Int) (events : List DPWLEvent),
      (dpwlRun work events).work_runs ≤ 1) ∧
    (∀ work : Except String Int,
      dpwlRun work [.timeoutFires, .lockGranted] =
        ⟨false, some (.error "The operation timed out."), 0, true⟩) :=
  ⟨fun work events =>
    (dpwlAux work events dpwlInit ⟨by simp [dpwlInit], fun _ => rfl⟩).1,
    fun _ => rfl⟩

/-- C10.  For a duplicate-free record, `splitPatch` partitions the
schema-declared portion of the input: the two outputs have disjoint
keys, every output key is a schema key, and a key absent from the
schema appears in neither output. -/
theorem splitPatch_partition (schema : JSVal) (fs : List (String × JSVal))
    (k : String) (hnd : (fs.map Prod.fst).Nodup) :
    (k ∈ (splitPatch schema (.obj fs)).baseData.objKeys →
      k ∉ (splitPatch schema (.obj fs)).overlayData.objKeys) ∧
    (k ∈ (splitPatch schema (.obj fs)).baseData.objKeys ∨
        k ∈ (splitPatch schema (.obj fs)).overlayData.objKeys →
      schema.objHas k = true) ∧
    (schema.objHas k = false →
      k ∉ (splitPatch schema (.obj fs)).baseData.objKeys ∧
      k ∉ (splitPatch schema (.obj fs)).overlayData.objKeys) := by
  rw [splitPatch_eq schema fs hnd]
  simp only [JSVal.objKeys, List.mem_map]
  refine ⟨?_, ?_, ?_⟩
  · rintro ⟨p, hp, hpk⟩ ⟨q, hq, hqk⟩
    have hpb := List.of_mem_filter hp
    have hqo := List.of_mem_filter hq
    simp only [splitBasePred, splitOvPred, Bool.and_eq_true] at hpb hqo
    rw [hpk] at hpb
    rw [hqk] at hqo
    rw [hqo.2] at hpb
    simp at hpb
  · rintro (⟨p, hp, hpk⟩ | ⟨p, hp, hpk⟩)
    · have := List.of_mem_filter hp
      simp only [splitBasePred, Bool.and_eq_true] at this
      rw [← hpk]
      exact this.1
    · have := List.of_mem_filter hp
      simp only [splitOvPred, Bool.and_eq_true] at this
      rw [← hpk]
      exact this.1
  · intro hhas
    constructor
    · rintro ⟨p, hp, hpk⟩
      have := List.of_mem_filter hp
      simp only [splitBasePred, Bool.and_eq_true] at this
      rw [hpk] at this
      rw [hhas] at this
      simp at this
    · rintro ⟨p, hp, hpk⟩
      have := List.of_mem_filter hp
      simp only [splitOvPred, Bool.and_eq_true] at this
      rw [hpk] at this
      rw [hhas] at this
      simp at this

/-- Witness for C10 on the two-field base/overlay record: `a` lands in
`baseData` only, `a` is a schema key, and the unschemaed key `c`
appears in neither output. -/
theorem splitPatch_partition_witness :
    ("a" ∉ (splitPatch schemaBaseOverlay (.obj recordAB)).overlayData.objKeys) ∧
    schemaBaseOverlay.objHas "a" = true ∧
    ("c" ∉ (splitPatch schemaBaseOverlay (.obj recordAB)).baseData.objKeys ∧
      "c" ∉ (splitPatch schemaBaseOverlay (.obj recordAB)).overlayData.objKeys) :=
  ⟨(splitPatch_partition schemaBaseOverlay recordAB "a" (by decide)).1
      (by decide),
    (splitPatch_partition schemaBaseOverlay recordAB "a" (by decide)).2.1
      (Or.inl (by decide)),
    (splitPatch_partition schemaBaseOverlay recordAB "c" (by decide)).2.2
      (by decide)⟩

end Reprivileger
